import Mathlib

/-!
# Verification of the SKU reconciliation and rollup engine

Shallow embedding of the reconciliation core of the Sales Report Generator:
the SKU normalizer (normalizeSku), the tiered product matcher and per-item
rollup (recalculateItems), the aggregate totals (totals), and the invoice
history POST handler (postInvoice).

Modelling conventions:
* JS strings are lists of Unicode code points (List Nat).  All characters
  touched by the normalizer are in the Basic Multilingual Plane, where
  UTF-16 code units and code points coincide.
* JS numbers are modelled as rationals; a JS number slot that can be
  undefined or NaN is modelled as Option Rat, with none standing for the
  absent/NaN case (arithmetic on none propagates none, as NaN does).
* A JS object field that may be missing is an Option field; the JS
  truthiness test on a numeric field treats undefined, null and 0 as
  falsy, which is none or some 0 in the model.
* The product master is a JS object used as a map; Object.entries iterates
  in insertion order, so it is modelled as an association list.
-/

namespace SalesReport

/-! ## SKU normalizer

Source (App code embedded in src/gemini_prompt.md, normalizeSku):
uppercase the input, then globally replace each of 14 visually-confusable
Greek capital letters by its Latin equivalent.  The file in the repository
shows the table keys mojibake-encoded (UTF-8 bytes displayed as Mac Roman);
the underlying characters are the Greek capitals for A B E Z H I K M N O P
T Y X. -/

/-- One step of the JS toUpperCase simple case mapping, on code points.
Covers the ranges the normalizer can meet: ASCII lowercase and the Greek
lowercase block (including final sigma); identity elsewhere. -/
def jsUpperCp (n : Nat) : Nat :=
  if 0x61 ≤ n ∧ n ≤ 0x7A then n - 32
  else if 0x3B1 ≤ n ∧ n ≤ 0x3C1 then n - 32
  else if n = 0x3C2 then 0x3A3
  else if 0x3C3 ≤ n ∧ n ≤ 0x3C9 then n - 32
  else n

/-- The greekToEnglish substitution table of normalizeSku, as code points:
Α→A, Β→B, Ε→E, Ζ→Z, Η→H, Ι→I, Κ→K, Μ→M, Ν→N, Ο→O, Ρ→P, Τ→T, Υ→Y, Χ→X. -/
def greekToEnglish : List (Nat × Nat) :=
  [(0x391, 0x41), (0x392, 0x42), (0x395, 0x45), (0x396, 0x5A),
   (0x397, 0x48), (0x399, 0x49), (0x39A, 0x4B), (0x39C, 0x4D),
   (0x39D, 0x4E), (0x39F, 0x4F), (0x3A1, 0x50), (0x3A4, 0x54),
   (0x3A5, 0x59), (0x3A7, 0x58)]

/-- The action of one substitution-table entry on one character. -/
def stepCp (c : Nat) (p : Nat × Nat) : Nat := if c = p.1 then p.2 else c

/-- Global replacement of one single-character pattern: the model of one
s.replace(new RegExp(greek, 'g'), english) call. -/
def replaceAllCp (p : Nat × Nat) (s : List Nat) : List Nat :=
  s.map (stepCp · p)

/-- normalizeSku: empty string for a falsy (null/absent) input, otherwise
uppercase and run the substitution table, one global replace per entry. -/
def normalizeSku : Option (List Nat) → List Nat
  | none => []
  | some s =>
      greekToEnglish.foldl (fun acc p => replaceAllCp p acc) (s.map jsUpperCp)

/-- The per-character action of the whole substitution table, written as a
flat conditional chain. -/
def substCp (n : Nat) : Nat :=
  if n = 0x391 then 0x41 else if n = 0x392 then 0x42
  else if n = 0x395 then 0x45 else if n = 0x396 then 0x5A
  else if n = 0x397 then 0x48 else if n = 0x399 then 0x49
  else if n = 0x39A then 0x4B else if n = 0x39C then 0x4D
  else if n = 0x39D then 0x4E else if n = 0x39F then 0x4F
  else if n = 0x3A1 then 0x50 else if n = 0x3A4 then 0x54
  else if n = 0x3A5 then 0x59 else if n = 0x3A7 then 0x58
  else n

/-- The per-character action of the whole normalizer. -/
def normCp (n : Nat) : Nat := substCp (jsUpperCp n)

/-! ## Data model -/

/-- A SKU string, as code points. -/
abbrev Sku := List Nat

/-- Packaging metadata for one SKU (source defaultBoxConfig shape and the
product form).  Only the five numeric fields are read by the core; name and
hsn_code are passthrough and omitted.  An Option field models a JS field
that can be missing or null. -/
structure ProductConfig where
  pieces_per_box : Option Rat
  box_weight_kg : Option Rat
  box_length_cm : Option Rat
  box_width_cm : Option Rat
  box_height_cm : Option Rat
deriving DecidableEq

/-- The numeric values of the source defaultBoxConfig literal. -/
def defaultPieces : Rat := 48
def defaultWeight : Rat := 5
def defaultLength : Rat := 30
def defaultWidth : Rat := 25
def defaultHeight : Rat := 20

/-- The fixed default configuration. -/
def defaultBoxConfig : ProductConfig :=
  { pieces_per_box := some defaultPieces
    box_weight_kg := some defaultWeight
    box_length_cm := some defaultLength
    box_width_cm := some defaultWidth
    box_height_cm := some defaultHeight }

/-- The product master: a JS object keyed by SKU, with Object.entries
iteration in insertion order, hence an association list. -/
abbrev ProductMaster := List (Sku × ProductConfig)

/-- Property read productMaster[k]: the entry stored under key k. -/
def lookupConfig (m : ProductMaster) (k : Sku) : Option ProductConfig :=
  (m.find? fun p => p.1 = k).map fun p => p.2

/-- The reported match tier. -/
inductive MatchTier
  | exact
  | normalized
  | fuzzy
  | default
deriving DecidableEq

/-- Tiered resolution inside recalculateItems: exact key lookup, then
lookup of the normalized SKU, then a scan of Object.entries for a key with
equal normalization, then the default configuration.  A null/absent SKU
fails the exact lookup (the master is assumed to have no entry under the
coerced key). -/
def matchSku (m : ProductMaster) (sku : Option Sku) : ProductConfig × MatchTier :=
  let normalizedSku := normalizeSku sku
  match (match sku with | none => none | some s => lookupConfig m s) with
  | some config => (config, MatchTier.exact)
  | none =>
    match lookupConfig m normalizedSku with
    | some config => (config, MatchTier.normalized)
    | none =>
      match m.find? (fun p => normalizeSku (some p.1) = normalizedSku) with
      | some p => (p.2, MatchTier.fuzzy)
      | none => (defaultBoxConfig, MatchTier.default)

/-- One extracted invoice row.  quantity and taxable_value are Option Rat:
none models a missing field, whose JS arithmetic yields NaN.  description
stands for the passthrough fields the core never interprets. -/
structure LineItem where
  sku : Option Sku
  description : List Nat
  quantity : Option Rat
  taxable_value : Option Rat
deriving DecidableEq

/-- The JS expression config.field || default on a numeric field:
undefined, null and 0 are falsy and select the default; any other value,
including a negative one, is kept. -/
def jsOr (v : Option Rat) (d : Rat) : Rat :=
  match v with
  | none => d
  | some x => if x = 0 then d else x

/-- The rollup outputs computed from a matched configuration and a
quantity.  box_dimensions keeps the resolved length, width and height;
the source renders them as a formatted string. -/
structure Rollup where
  pieces_per_box : Rat
  box_weight_kg : Rat
  box_dimensions : Rat × Rat × Rat
  num_boxes : Option Int
  total_weight : Option Rat
deriving DecidableEq

/-- The rollup block of recalculateItems: resolve each numeric field with
the falsy-fallback, then numBoxes = Math.ceil(quantity / piecesPerBox) and
total_weight = numBoxes * boxWeight.  A missing quantity propagates NaN
(none) through ceil and the product. -/
def rollup (config : ProductConfig) (quantity : Option Rat) : Rollup :=
  let piecesPerBox := jsOr config.pieces_per_box defaultPieces
  let boxWeight := jsOr config.box_weight_kg defaultWeight
  let numBoxes := quantity.map fun q => ⌈q / piecesPerBox⌉
  { pieces_per_box := piecesPerBox
    box_weight_kg := boxWeight
    box_dimensions :=
      (jsOr config.box_length_cm defaultLength,
       jsOr config.box_width_cm defaultWidth,
       jsOr config.box_height_cm defaultHeight)
    num_boxes := numBoxes
    total_weight := numBoxes.map fun b : Int => (b : Rat) * boxWeight }

/-- A raw line item together with the five enrichment fields added by the
spread in recalculateItems. -/
structure EnrichedItem where
  item : LineItem
  pieces_per_box : Rat
  box_weight_kg : Rat
  box_dimensions : Rat × Rat × Rat
  num_boxes : Option Int
  total_weight : Option Rat
deriving DecidableEq

/-- The loop body of recalculateItems for one item: match the SKU, compute
the rollup, and emit the spread of the original item with the five
enrichment fields. -/
def enrichItem (m : ProductMaster) (item : LineItem) : EnrichedItem :=
  let config := (matchSku m item.sku).1
  let r := rollup config item.quantity
  { item := item
    pieces_per_box := r.pieces_per_box
    box_weight_kg := r.box_weight_kg
    box_dimensions := r.box_dimensions
    num_boxes := r.num_boxes
    total_weight := r.total_weight }

/-- recalculateItems: map the enrichment over the source items. -/
def recalculateItems (m : ProductMaster) (lineItems : List LineItem) :
    List EnrichedItem :=
  lineItems.map (enrichItem m)

/-- Aggregate totals. -/
structure Totals where
  quantity : Option Rat
  boxes : Option Int
  weight : Option Rat
  value : Option Rat
deriving DecidableEq

/-- NaN-propagating addition on JS numbers. -/
def addQ (a b : Option Rat) : Option Rat :=
  match a, b with
  | some x, some y => some (x + y)
  | _, _ => none

/-- NaN-propagating addition on integer-valued JS numbers. -/
def addZ (a b : Option Int) : Option Int :=
  match a, b with
  | some x, some y => some (x + y)
  | _, _ => none

/-- The totals reduce over the processed items, starting from all zeros. -/
def totals (processedItems : List EnrichedItem) : Totals :=
  processedItems.foldl
    (fun acc item =>
      { quantity := addQ acc.quantity item.item.quantity
        boxes := addZ acc.boxes item.num_boxes
        weight := addQ acc.weight item.total_weight
        value := addQ acc.value item.item.taxable_value })
    { quantity := some 0, boxes := some 0, weight := some 0, value := some 0 }

/-- The POST /api/invoices handler body on the stored history list
(src/unnamed/part_000): unshift the new invoice, then truncate to the
newest 100 entries.  The construction of the invoice record itself
(id, created_at) is outside the list-shape property and the new record is
taken as an argument. -/
def postInvoice {α : Type} (stored : List α) (newInvoice : α) : List α :=
  let invoices := newInvoice :: stored
  if invoices.length > 100 then invoices.take 100 else invoices

/-- A config storing a present negative pieces_per_box. -/
def negPiecesConfig : ProductConfig :=
  { pieces_per_box := some (-5), box_weight_kg := none,
    box_length_cm := none, box_width_cm := none, box_height_cm := none }

/-- A config mixing falsy and truthy fields. -/
def mixedConfig : ProductConfig :=
  { pieces_per_box := some 0, box_weight_kg := some 7,
    box_length_cm := none, box_width_cm := some 31, box_height_cm := some 0 }

/-- Line item whose quantity field is missing entirely. -/
def missingQtyItem : LineItem :=
  { sku := some [0x41], description := [], quantity := none,
    taxable_value := some 10 }

/-- Line item whose sku field is missing entirely. -/
def missingSkuItem : LineItem :=
  { sku := none, description := [], quantity := some 5,
    taxable_value := some 10 }

/-- A well-formed concrete line item. -/
def wfItem : LineItem :=
  { sku := some [0x41], description := [], quantity := some 5,
    taxable_value := some 10 }

/-- Folding the per-entry global replacements over a string is the
character-wise fold of the entries. -/
theorem foldl_replaceAllCp (ps : List (Nat × Nat)) (s : List Nat) :
    ps.foldl (fun acc p => replaceAllCp p acc) s
      = s.map fun c => ps.foldl stepCp c := by
  induction ps generalizing s with
  | nil => simp
  | cons p ps ih =>
      simp only [List.foldl_cons]
      rw [ih]
      simp only [replaceAllCp, List.map_map]
      rfl

/-- On one character, folding the substitution table is the flat chain. -/
theorem foldl_stepCp (c : Nat) : greekToEnglish.foldl stepCp c = substCp c := by
  by_cases h1 : c = 0x391
  · subst h1; decide
  by_cases h2 : c = 0x392
  · subst h2; decide
  by_cases h3 : c = 0x395
  · subst h3; decide
  by_cases h4 : c = 0x396
  · subst h4; decide
  by_cases h5 : c = 0x397
  · subst h5; decide
  by_cases h6 : c = 0x399
  · subst h6; decide
  by_cases h7 : c = 0x39A
  · subst h7; decide
  by_cases h8 : c = 0x39C
  · subst h8; decide
  by_cases h9 : c = 0x39D
  · subst h9; decide
  by_cases h10 : c = 0x39F
  · subst h10; decide
  by_cases h11 : c = 0x3A1
  · subst h11; decide
  by_cases h12 : c = 0x3A4
  · subst h12; decide
  by_cases h13 : c = 0x3A5
  · subst h13; decide
  by_cases h14 : c = 0x3A7
  · subst h14; decide
  simp [greekToEnglish, stepCp, substCp, h1, h2, h3, h4, h5, h6, h7, h8, h9,
    h10, h11, h12, h13, h14]

/-- normalizeSku on a present string acts character-wise. -/
theorem normalizeSku_some (s : List Nat) :
    normalizeSku (some s) = s.map normCp := by
  show greekToEnglish.foldl (fun acc p => replaceAllCp p acc) (s.map jsUpperCp)
      = s.map normCp
  rw [foldl_replaceAllCp, List.map_map]
  refine List.map_congr_left fun c _ => ?_
  simp only [Function.comp_apply]
  rw [foldl_stepCp, normCp]

/-- Uppercasing sends every character to a Latin capital, a Greek capital,
or fixes it outside the lowercase ranges. -/
theorem jsUpperCp_cases (n : Nat) :
    (0x41 ≤ jsUpperCp n ∧ jsUpperCp n ≤ 0x5A) ∨
    (0x391 ≤ jsUpperCp n ∧ jsUpperCp n ≤ 0x3A9) ∨
    (jsUpperCp n = n ∧ ¬(0x61 ≤ n ∧ n ≤ 0x7A) ∧ ¬(0x3B1 ≤ n ∧ n ≤ 0x3C9)) := by
  unfold jsUpperCp
  split_ifs <;> omega

/-- Uppercasing fixes a character outside the lowercase ranges. -/
theorem jsUpperCp_fixed (r : Nat) (h1 : ¬(0x61 ≤ r ∧ r ≤ 0x7A))
    (h2 : ¬(0x3B1 ≤ r ∧ r ≤ 0x3C9)) : jsUpperCp r = r := by
  unfold jsUpperCp
  split_ifs <;> omega

/-- The substitution chain fixes a character outside its domain. -/
theorem substCp_fixed (r : Nat)
    (h : r ≠ 0x391 ∧ r ≠ 0x392 ∧ r ≠ 0x395 ∧ r ≠ 0x396 ∧ r ≠ 0x397 ∧
      r ≠ 0x399 ∧ r ≠ 0x39A ∧ r ≠ 0x39C ∧ r ≠ 0x39D ∧ r ≠ 0x39F ∧
      r ≠ 0x3A1 ∧ r ≠ 0x3A4 ∧ r ≠ 0x3A5 ∧ r ≠ 0x3A7) : substCp r = r := by
  obtain ⟨h1, h2, h3, h4, h5, h6, h7, h8, h9, h10, h11, h12, h13, h14⟩ := h
  unfold substCp
  rw [if_neg h1, if_neg h2, if_neg h3, if_neg h4, if_neg h5, if_neg h6,
    if_neg h7, if_neg h8, if_neg h9, if_neg h10, if_neg h11, if_neg h12,
    if_neg h13, if_neg h14]

/-- The substitution either fixes a character outside its domain or lands
in the Latin capitals. -/
theorem substCp_cases (r : Nat) :
    (substCp r = r ∧ r ≠ 0x391 ∧ r ≠ 0x392 ∧ r ≠ 0x395 ∧ r ≠ 0x396 ∧
      r ≠ 0x397 ∧ r ≠ 0x399 ∧ r ≠ 0x39A ∧ r ≠ 0x39C ∧ r ≠ 0x39D ∧
      r ≠ 0x39F ∧ r ≠ 0x3A1 ∧ r ≠ 0x3A4 ∧ r ≠ 0x3A5 ∧ r ≠ 0x3A7) ∨
    (0x41 ≤ substCp r ∧ substCp r ≤ 0x5A) := by
  by_cases h1 : r = 0x391
  · subst h1; right; decide
  by_cases h2 : r = 0x392
  · subst h2; right; decide
  by_cases h3 : r = 0x395
  · subst h3; right; decide
  by_cases h4 : r = 0x396
  · subst h4; right; decide
  by_cases h5 : r = 0x397
  · subst h5; right; decide
  by_cases h6 : r = 0x399
  · subst h6; right; decide
  by_cases h7 : r = 0x39A
  · subst h7; right; decide
  by_cases h8 : r = 0x39C
  · subst h8; right; decide
  by_cases h9 : r = 0x39D
  · subst h9; right; decide
  by_cases h10 : r = 0x39F
  · subst h10; right; decide
  by_cases h11 : r = 0x3A1
  · subst h11; right; decide
  by_cases h12 : r = 0x3A4
  · subst h12; right; decide
  by_cases h13 : r = 0x3A5
  · subst h13; right; decide
  by_cases h14 : r = 0x3A7
  · subst h14; right; decide
  exact Or.inl ⟨substCp_fixed r
    ⟨h1, h2, h3, h4, h5, h6, h7, h8, h9, h10, h11, h12, h13, h14⟩,
    h1, h2, h3, h4, h5, h6, h7, h8, h9, h10, h11, h12, h13, h14⟩

/-- Every output character of the normalizer is outside the lowercase
ranges and outside the substitution table's domain. -/
theorem normCp_fixed_chars (n : Nat) :
    ¬(0x61 ≤ normCp n ∧ normCp n ≤ 0x7A) ∧
    ¬(0x3B1 ≤ normCp n ∧ normCp n ≤ 0x3C9) ∧
    (normCp n ≠ 0x391 ∧ normCp n ≠ 0x392 ∧ normCp n ≠ 0x395 ∧
     normCp n ≠ 0x396 ∧ normCp n ≠ 0x397 ∧ normCp n ≠ 0x399 ∧
     normCp n ≠ 0x39A ∧ normCp n ≠ 0x39C ∧ normCp n ≠ 0x39D ∧
     normCp n ≠ 0x39F ∧ normCp n ≠ 0x3A1 ∧ normCp n ≠ 0x3A4 ∧
     normCp n ≠ 0x3A5 ∧ normCp n ≠ 0x3A7) := by
  have hu := jsUpperCp_cases n
  have hs := substCp_cases (jsUpperCp n)
  show _ ∧ _ ∧ _
  unfold normCp
  omega

/-- The per-character normalizer is idempotent. -/
theorem normCp_idem (n : Nat) : normCp (normCp n) = normCp n := by
  obtain ⟨h1, h2, h3⟩ := normCp_fixed_chars n
  show substCp (jsUpperCp (normCp n)) = normCp n
  rw [jsUpperCp_fixed _ h1 h2, substCp_fixed _ h3]

/-! ## Helper lemmas -/

/-- Normalizing an already-normalized SKU changes nothing. -/
theorem normalizeSku_idem (x : Option (List Nat)) :
    normalizeSku (some (normalizeSku x)) = normalizeSku x := by
  cases x with
  | none => rfl
  | some s =>
      rw [normalizeSku_some, normalizeSku_some, List.map_map]
      refine List.map_congr_left fun c _ => ?_
      simp only [Function.comp_apply]
      exact normCp_idem c

/-- A falsy field (absent or zero) resolves to the default. -/
theorem jsOr_falsy (v : Option Rat) (d : Rat) (h : v = none ∨ v = some 0) :
    jsOr v d = d := by
  rcases h with h | h <;> subst h <;> simp [jsOr]

/-- A present nonzero field resolves to itself. -/
theorem jsOr_of_ne (d x : Rat) (hx : x ≠ 0) : jsOr (some x) d = x := by
  simp [jsOr, hx]

/-- matchSku on a present SKU, with the outer match unfolded. -/
theorem matchSku_some (m : ProductMaster) (s : Sku) :
    matchSku m (some s) =
      (match lookupConfig m s with
       | some config => (config, MatchTier.exact)
       | none =>
         match lookupConfig m (normalizeSku (some s)) with
         | some config => (config, MatchTier.normalized)
         | none =>
           match m.find? (fun p => normalizeSku (some p.1) = normalizeSku (some s)) with
           | some p => (p.2, MatchTier.fuzzy)
           | none => (defaultBoxConfig, MatchTier.default)) := rfl

/-- With unique keys, the property read returns the stored config. -/
theorem lookupConfig_of_nodup (m : ProductMaster) (s : Sku) (cfg : ProductConfig)
    (hnd : (m.map fun p => p.1).Nodup) (hmem : (s, cfg) ∈ m) :
    lookupConfig m s = some cfg := by
  induction m with
  | nil => cases hmem
  | cons p t ih =>
      rw [List.map_cons, List.nodup_cons] at hnd
      rcases List.mem_cons.mp hmem with h | h
      · subst h
        simp [lookupConfig]
      · have hne : ¬(p.1 = s) := by
          intro he
          exact hnd.1 (he ▸ List.mem_map_of_mem (fun q => q.1) h)
        have := ih hnd.2 h
        simp only [lookupConfig] at this ⊢
        rw [List.find?_cons_of_neg _ (by simpa using hne)]
        exact this

/-! ## Claim theorems -/

/-- C8: normalizeSku is idempotent (normalizing a normalized string is a
no-op), and a null/absent SKU normalizes to the empty string. -/
theorem c8_normalize_idem :
    (∀ x : List Nat,
        normalizeSku (some (normalizeSku (some x))) = normalizeSku (some x)) ∧
    normalizeSku none = [] :=
  ⟨fun x => normalizeSku_idem (some x), rfl⟩

/-- C9: recalculateItems emits exactly one enriched item per raw item, in
order.  The i-th output is a function of the i-th input and the master
alone, and carries the raw item unchanged next to the five enrichment
fields. -/
theorem c9_frame_order (m : ProductMaster) (lineItems : List LineItem) :
    (recalculateItems m lineItems).length = lineItems.length ∧
    (∀ i : Nat,
        (recalculateItems m lineItems)[i]? = (lineItems[i]?).map (enrichItem m)) ∧
    (∀ i : Nat,
        ((recalculateItems m lineItems)[i]?).map (fun e => e.item) = lineItems[i]?) := by
  refine ⟨List.length_map _ _, fun i => ?_, fun i => ?_⟩
  · rw [recalculateItems, List.getElem?_map]
  · rw [recalculateItems, List.getElem?_map]
    cases lineItems[i]? with
    | none => rfl
    | some it => rfl

/-- C10: after a POST to /api/invoices the persisted history holds at most
100 entries, the new invoice comes first, and the result is exactly the
first 100 entries of the new invoice followed by the previous history
(newest first). -/
theorem c10_invoice_history {α : Type} (stored : List α) (newInvoice : α) :
    (postInvoice stored newInvoice).length ≤ 100 ∧
    (postInvoice stored newInvoice).head? = some newInvoice ∧
    postInvoice stored newInvoice = (newInvoice :: stored).take 100 := by
  simp only [postInvoice]
  by_cases h : (newInvoice :: stored).length > 100
  · rw [if_pos h]
    refine ⟨?_, ?_, rfl⟩
    · rw [List.length_take]
      omega
    · rw [List.head?_take]
      simp
  · rw [if_neg h]
    simp only [List.length_cons] at h
    refine ⟨by simp; omega, rfl, ?_⟩
    rw [List.take_of_length_le (by simp; omega)]

/-- C1: for every configuration and non-negative integer quantity q, the
rollup computes num_boxes as the ceiling of q divided by the resolved
pieces_per_box and total_weight as num_boxes times the resolved
box_weight_kg; quantity 0 yields 0 boxes and 0 weight, and 48 pieces per
box with quantity 100 yields 3 boxes. -/
theorem c1_rollup_ceiling (config : ProductConfig) (q : Nat) :
    (rollup config (some (q : Rat))).num_boxes
        = some ⌈(q : Rat) / (rollup config (some (q : Rat))).pieces_per_box⌉ ∧
    (rollup config (some (q : Rat))).total_weight
        = some ((⌈(q : Rat) / (rollup config (some (q : Rat))).pieces_per_box⌉ : Rat)
            * (rollup config (some (q : Rat))).box_weight_kg) ∧
    (rollup config (some 0)).num_boxes = some 0 ∧
    (rollup config (some 0)).total_weight = some 0 ∧
    (rollup defaultBoxConfig (some 100)).num_boxes = some 3 := by
  refine ⟨rfl, rfl, ?_, ?_, ?_⟩
  · simp [rollup]
  · simp [rollup]
  · simp only [rollup, defaultBoxConfig, jsOr, defaultPieces, Option.map_some]
    norm_num [Int.ceil_eq_iff]

/-- A successful exact lookup yields the Exact tier. -/
theorem matchSku_found (m : ProductMaster) (s : Sku) (cfg : ProductConfig)
    (h : lookupConfig m s = some cfg) :
    matchSku m (some s) = (cfg, MatchTier.exact) := by
  rw [matchSku_some, h]

/-- A failed exact lookup and a successful normalized lookup yield the
Normalized tier. -/
theorem matchSku_normalized (m : ProductMaster) (s : Sku) (cfg : ProductConfig)
    (h1 : lookupConfig m s = none)
    (h2 : lookupConfig m (normalizeSku (some s)) = some cfg) :
    matchSku m (some s) = (cfg, MatchTier.normalized) := by
  rw [matchSku_some, h1, h2]

/-- Failed exact and normalized lookups and a successful scan yield the
Fuzzy tier with the found entry's config. -/
theorem matchSku_fuzzy (m : ProductMaster) (s : Sku) (pr : Sku × ProductConfig)
    (h1 : lookupConfig m s = none)
    (h2 : lookupConfig m (normalizeSku (some s)) = none)
    (h3 : m.find? (fun p => normalizeSku (some p.1) = normalizeSku (some s))
        = some pr) :
    matchSku m (some s) = (pr.2, MatchTier.fuzzy) := by
  rw [matchSku_some, h1, h2, h3]

/-- All three lookups failing yields the Default tier. -/
theorem matchSku_defaulted (m : ProductMaster) (s : Sku)
    (h1 : lookupConfig m s = none)
    (h2 : lookupConfig m (normalizeSku (some s)) = none)
    (h3 : m.find? (fun p => normalizeSku (some p.1) = normalizeSku (some s))
        = none) :
    matchSku m (some s) = (defaultBoxConfig, MatchTier.default) := by
  rw [matchSku_some, h1, h2, h3]

/-- A successful lookup names an entry of the master whose key is the
looked-up SKU. -/
theorem lookupConfig_some (m : ProductMaster) (k : Sku) (cfg : ProductConfig)
    (h : lookupConfig m k = some cfg) :
    ∃ pr : Sku × ProductConfig,
      pr ∈ m ∧ pr.1 = k ∧ pr.2 = cfg := by
  unfold lookupConfig at h
  cases hf : m.find? fun p => p.1 = k with
  | none => rw [hf] at h; cases h
  | some pr =>
      rw [hf] at h
      exact ⟨pr, List.mem_of_find?_eq_some hf,
        by simpa using List.find?_some hf, by simpa using h⟩

/-- C4: a SKU present verbatim as a key of the master resolves at the
Exact tier and returns the master's config for that key. -/
theorem c4_exact_tier (m : ProductMaster) (s : Sku) (cfg : ProductConfig)
    (hnd : (m.map fun p => p.1).Nodup) (hmem : (s, cfg) ∈ m) :
    matchSku m (some s) = (cfg, MatchTier.exact) :=
  matchSku_found m s cfg (lookupConfig_of_nodup m s cfg hnd hmem)

/-- Witness for C4 at a concrete one-entry master. -/
theorem c4_exact_tier_witness :
    ((([([0x41], defaultBoxConfig)] : ProductMaster).map fun p => p.1).Nodup ∧
      ([0x41], defaultBoxConfig) ∈ ([([0x41], defaultBoxConfig)] : ProductMaster)) ∧
    matchSku [([0x41], defaultBoxConfig)] (some [0x41])
        = (defaultBoxConfig, MatchTier.exact) :=
  ⟨⟨by decide, List.mem_singleton.mpr rfl⟩,
    c4_exact_tier [([0x41], defaultBoxConfig)] [0x41] defaultBoxConfig
      (by decide) (List.mem_singleton.mpr rfl)⟩

/-- C3: a SKU not stored verbatim whose normalization coincides with the
normalization of some stored key resolves at the Normalized or Fuzzy tier,
returning the config of such a key, never at the Default tier. -/
theorem c3_normalized_or_fuzzy (m : ProductMaster) (s k : Sku)
    (cfg : ProductConfig)
    (hex : lookupConfig m s = none)
    (hk : (k, cfg) ∈ m)
    (hn : normalizeSku (some k) = normalizeSku (some s)) :
    ((matchSku m (some s)).2 = MatchTier.normalized ∨
        (matchSku m (some s)).2 = MatchTier.fuzzy) ∧
    ∃ k2 : Sku, ∃ cfg2 : ProductConfig, (k2, cfg2) ∈ m ∧
      normalizeSku (some k2) = normalizeSku (some s) ∧
      (matchSku m (some s)).1 = cfg2 := by
  cases hn2 : lookupConfig m (normalizeSku (some s)) with
  | some c =>
      rw [matchSku_normalized m s c hex hn2]
      obtain ⟨pr, hprm, hkey, hcfg⟩ := lookupConfig_some m _ c hn2
      refine ⟨Or.inl rfl, pr.1, pr.2, hprm, ?_, hcfg.symm⟩
      rw [hkey]
      exact normalizeSku_idem (some s)
  | none =>
      cases hf : m.find?
          (fun p => normalizeSku (some p.1) = normalizeSku (some s)) with
      | none =>
          exfalso
          rw [List.find?_eq_none] at hf
          have hnk := hf (k, cfg) hk
          simp only [decide_eq_true_eq] at hnk
          exact hnk hn
      | some pr =>
          rw [matchSku_fuzzy m s pr hex hn2 hf]
          exact ⟨Or.inr rfl, pr.1, pr.2, List.mem_of_find?_eq_some hf,
            by simpa using List.find?_some hf, rfl⟩

/-- Witness for C3: key "A", queried as lowercase "a". -/
theorem c3_normalized_or_fuzzy_witness :
    (lookupConfig [([0x41], defaultBoxConfig)] [0x61] = none ∧
      ([0x41], defaultBoxConfig) ∈ ([([0x41], defaultBoxConfig)] : ProductMaster) ∧
      normalizeSku (some [0x41]) = normalizeSku (some [0x61])) ∧
    (((matchSku [([0x41], defaultBoxConfig)] (some [0x61])).2 = MatchTier.normalized ∨
        (matchSku [([0x41], defaultBoxConfig)] (some [0x61])).2 = MatchTier.fuzzy) ∧
      ∃ k2 : Sku, ∃ cfg2 : ProductConfig,
        (k2, cfg2) ∈ ([([0x41], defaultBoxConfig)] : ProductMaster) ∧
        normalizeSku (some k2) = normalizeSku (some [0x61]) ∧
        (matchSku [([0x41], defaultBoxConfig)] (some [0x61])).1 = cfg2) :=
  ⟨⟨by decide, List.mem_singleton.mpr rfl, by decide⟩,
    c3_normalized_or_fuzzy [([0x41], defaultBoxConfig)] [0x61] [0x41]
      defaultBoxConfig (by decide) (List.mem_singleton.mpr rfl) (by decide)⟩

/-- C5: a SKU matching under none of the three tiers does not fail: it
resolves at the Default tier with exactly the fixed default configuration
(48 pieces per box, 5 kg, 30 by 25 by 20 cm). -/
theorem c5_default_tier (m : ProductMaster) (s : Sku)
    (h1 : lookupConfig m s = none)
    (h2 : lookupConfig m (normalizeSku (some s)) = none)
    (h3 : ∀ p ∈ m, normalizeSku (some p.1) ≠ normalizeSku (some s)) :
    matchSku m (some s) =
      ({ pieces_per_box := some 48, box_weight_kg := some 5,
         box_length_cm := some 30, box_width_cm := some 25,
         box_height_cm := some 20 }, MatchTier.default) := by
  have hf : m.find?
      (fun p => normalizeSku (some p.1) = normalizeSku (some s)) = none := by
    rw [List.find?_eq_none]
    intro x hx
    simpa using h3 x hx
  rw [matchSku_defaulted m s h1 h2 hf]
  rfl

/-- Witness for C5: unmatched SKU "Q" against a one-entry master. -/
theorem c5_default_tier_witness :
    (lookupConfig [([0x42], defaultBoxConfig)] [0x51] = none ∧
      lookupConfig [([0x42], defaultBoxConfig)]
        (normalizeSku (some [0x51])) = none ∧
      ∀ p ∈ ([([0x42], defaultBoxConfig)] : ProductMaster),
        normalizeSku (some p.1) ≠ normalizeSku (some [0x51])) ∧
    matchSku [([0x42], defaultBoxConfig)] (some [0x51]) =
      ({ pieces_per_box := some 48, box_weight_kg := some 5,
         box_length_cm := some 30, box_width_cm := some 25,
         box_height_cm := some 20 }, MatchTier.default) :=
  ⟨⟨by decide, by decide, by decide⟩,
    c5_default_tier _ _ (by decide) (by decide) (by decide)⟩

/-- C2 counterexample: a present non-positive (negative) pieces_per_box is
NOT replaced by the default 48 — the falsy test keeps any nonzero value —
so at quantity 100 the rollup computes -20 boxes where the claim predicts
ceil(100/48) = 3. -/
theorem c2_fallback_counterexample :
    (rollup negPiecesConfig (some 100)).pieces_per_box = -5 ∧
    (rollup negPiecesConfig (some 100)).pieces_per_box ≠ defaultPieces ∧
    (rollup negPiecesConfig (some 100)).num_boxes = some (-20) ∧
    (rollup negPiecesConfig (some 100)).num_boxes
        ≠ some ⌈(100 : Rat) / defaultPieces⌉ := by
  have hp : jsOr negPiecesConfig.pieces_per_box defaultPieces = -5 :=
    jsOr_of_ne _ _ (by norm_num)
  have hn : (rollup negPiecesConfig (some 100)).num_boxes = some (-20) := by
    simp only [rollup, Option.map_some', hp]
    norm_num [Int.ceil_eq_iff]
  refine ⟨hp, ?_, hn, ?_⟩
  · simp only [rollup]
    rw [hp]
    norm_num [defaultPieces]
  · rw [hn]
    have : ⌈(100 : Rat) / defaultPieces⌉ = 3 := by
      norm_num [Int.ceil_eq_iff, defaultPieces]
    rw [this]
    norm_num

/-- C2 amended: each of the five numeric fields, when absent or zero
(falsy), is replaced independently by the corresponding default before the
rollup; a present nonzero value — including a negative one — is used
as-is. -/
theorem c2_amended_fallback (config : ProductConfig) (q : Option Rat) :
    ((config.pieces_per_box = none ∨ config.pieces_per_box = some 0) →
        (rollup config q).pieces_per_box = defaultPieces) ∧
    (∀ x : Rat, x ≠ 0 → config.pieces_per_box = some x →
        (rollup config q).pieces_per_box = x) ∧
    ((config.box_weight_kg = none ∨ config.box_weight_kg = some 0) →
        (rollup config q).box_weight_kg = defaultWeight) ∧
    (∀ x : Rat, x ≠ 0 → config.box_weight_kg = some x →
        (rollup config q).box_weight_kg = x) ∧
    ((config.box_length_cm = none ∨ config.box_length_cm = some 0) →
        (rollup config q).box_dimensions.1 = defaultLength) ∧
    (∀ x : Rat, x ≠ 0 → config.box_length_cm = some x →
        (rollup config q).box_dimensions.1 = x) ∧
    ((config.box_width_cm = none ∨ config.box_width_cm = some 0) →
        (rollup config q).box_dimensions.2.1 = defaultWidth) ∧
    (∀ x : Rat, x ≠ 0 → config.box_width_cm = some x →
        (rollup config q).box_dimensions.2.1 = x) ∧
    ((config.box_height_cm = none ∨ config.box_height_cm = some 0) →
        (rollup config q).box_dimensions.2.2 = defaultHeight) ∧
    (∀ x : Rat, x ≠ 0 → config.box_height_cm = some x →
        (rollup config q).box_dimensions.2.2 = x) := by
  refine ⟨?_, ?_, ?_, ?_, ?_, ?_, ?_, ?_, ?_, ?_⟩ <;>
    first
      | (intro h
         simp only [rollup]
         exact jsOr_falsy _ _ h)
      | (intro x hx hv
         simp only [rollup, hv]
         exact jsOr_of_ne _ _ hx)

/-- Witness for the amended C2 on a concrete mixed config. -/
theorem c2_amended_fallback_witness :
    (rollup mixedConfig (some 1)).pieces_per_box = defaultPieces ∧
    (rollup mixedConfig (some 1)).box_weight_kg = 7 ∧
    (rollup mixedConfig (some 1)).box_dimensions.1 = defaultLength ∧
    (rollup mixedConfig (some 1)).box_dimensions.2.1 = 31 ∧
    (rollup mixedConfig (some 1)).box_dimensions.2.2 = defaultHeight :=
  ⟨(c2_amended_fallback mixedConfig (some 1)).1 (Or.inr rfl),
   (c2_amended_fallback mixedConfig (some 1)).2.2.2.1 7 (by simp) rfl,
   (c2_amended_fallback mixedConfig (some 1)).2.2.2.2.1 (Or.inl rfl),
   (c2_amended_fallback mixedConfig (some 1)).2.2.2.2.2.2.2.1 31 (by simp) rfl,
   (c2_amended_fallback mixedConfig (some 1)).2.2.2.2.2.2.2.2.1 (Or.inr rfl)⟩

/-- C6 (code behavior at the failing input): for a structurally invalid
line item the reconciliation does not raise or report anything — the model
is total — and instead emits an enriched item whose num_boxes and
total_weight are NaN (none), which then poison the aggregate totals; an
item missing its sku is silently enriched with the default config.  The
unmatched-SKU half of the claim (no failure, Default tier) does hold. -/
theorem c6_invalid_items_not_rejected :
    recalculateItems [] [missingQtyItem] = [enrichItem [] missingQtyItem] ∧
    (enrichItem [] missingQtyItem).num_boxes = none ∧
    (enrichItem [] missingQtyItem).total_weight = none ∧
    (totals (recalculateItems [] [missingQtyItem])).quantity = none ∧
    (totals (recalculateItems [] [missingQtyItem])).boxes = none ∧
    (totals (recalculateItems [] [missingQtyItem])).weight = none ∧
    recalculateItems [] [missingSkuItem] = [enrichItem [] missingSkuItem] ∧
    (matchSku [] missingSkuItem.sku).2 = MatchTier.default ∧
    (enrichItem [] missingSkuItem).num_boxes = some 1 := by
  refine ⟨rfl, rfl, rfl, rfl, rfl, rfl, rfl, rfl, ?_⟩
  have hd : (matchSku ([] : ProductMaster) (none : Option Sku)).1.pieces_per_box
      = some defaultPieces := rfl
  simp only [enrichItem, rollup, missingSkuItem, Option.map_some', hd]
  rw [jsOr_of_ne _ _ (by norm_num [defaultPieces])]
  norm_num [Int.ceil_eq_iff, defaultPieces]

/-- C7: totals are the sums of quantity, num_boxes, total_weight and
taxable_value over the enriched sequence; the empty sequence gives
all-zero totals, and reconciling a well-formed item twice gives totals
whose four fields are exactly double those from reconciling it once. -/
theorem c7_totals_additive (m : ProductMaster) (item : LineItem) (q v : Rat)
    (hq : item.quantity = some q) (hv : item.taxable_value = some v) :
    totals (recalculateItems m []) =
      { quantity := some 0, boxes := some 0, weight := some 0,
        value := some 0 } ∧
    (totals (recalculateItems m [item, item])).quantity
        = (totals (recalculateItems m [item])).quantity.map (fun x => 2 * x) ∧
    (totals (recalculateItems m [item, item])).boxes
        = (totals (recalculateItems m [item])).boxes.map (fun x => 2 * x) ∧
    (totals (recalculateItems m [item, item])).weight
        = (totals (recalculateItems m [item])).weight.map (fun x => 2 * x) ∧
    (totals (recalculateItems m [item, item])).value
        = (totals (recalculateItems m [item])).value.map (fun x => 2 * x) := by
  have hb : (enrichItem m item).num_boxes
      = some ⌈q / jsOr ((matchSku m item.sku).1).pieces_per_box defaultPieces⌉ := by
    simp only [enrichItem, rollup, hq, Option.map_some']
  have hw : (enrichItem m item).total_weight
      = some
          ((⌈q / jsOr ((matchSku m item.sku).1).pieces_per_box defaultPieces⌉ : Rat)
            * jsOr ((matchSku m item.sku).1).box_weight_kg defaultWeight) := by
    have h0 : (enrichItem m item).total_weight
        = ((enrichItem m item).num_boxes).map
            (fun b : Int => (b : Rat)
              * jsOr ((matchSku m item.sku).1).box_weight_kg defaultWeight) := rfl
    rw [h0, hb, Option.map_some']
  have hi : (enrichItem m item).item = item := rfl
  refine ⟨rfl, ?_, ?_, ?_, ?_⟩ <;>
    · simp only [recalculateItems, List.map_cons, List.map_nil, totals,
        List.foldl_cons, List.foldl_nil, hi, hq, hv, hb, hw, addQ, addZ,
        Option.map_some']
      exact congrArg some (by ring)

/-- Witness for C7 at the empty master and a concrete item. -/
theorem c7_totals_additive_witness :
    (wfItem.quantity = some 5 ∧ wfItem.taxable_value = some 10) ∧
    (totals (recalculateItems [] []) =
      { quantity := some 0, boxes := some 0, weight := some 0,
        value := some 0 } ∧
    (totals (recalculateItems [] [wfItem, wfItem])).quantity
        = (totals (recalculateItems [] [wfItem])).quantity.map (fun x => 2 * x) ∧
    (totals (recalculateItems [] [wfItem, wfItem])).boxes
        = (totals (recalculateItems [] [wfItem])).boxes.map (fun x => 2 * x) ∧
    (totals (recalculateItems [] [wfItem, wfItem])).weight
        = (totals (recalculateItems [] [wfItem])).weight.map (fun x => 2 * x) ∧
    (totals (recalculateItems [] [wfItem, wfItem])).value
        = (totals (recalculateItems [] [wfItem])).value.map (fun x => 2 * x)) :=
  ⟨⟨rfl, rfl⟩, c7_totals_additive [] wfItem 5 10 rfl rfl⟩

end SalesReport
